import Mathlib

/-!
Verification of the image-chat session logic of `demo.py` (a Streamlit
front-end for an OpenAI-compatible vLLM server).

The shallow embedding models the three session-state variables
(`messages`, `image_data_url`, `image_sent`), the upload handler
(demo.py lines 85-88), the Reset-Chat button handler (lines 90-92), the
chat-input submit handler (lines 110-160) and the utility
`image_to_data_url` (lines 65-69).  The remote streaming call is modelled
by its observable outcome: the list of delta fragments it yields, or the
fragments yielded before an exception plus the exception message.  Python
truthiness of the `image_data_url` slot (None or empty string are falsy)
is modelled explicitly by `optTruthy`.
-/

namespace ImageChat

/-! ## Base64 (the encoding performed by `base64.b64encode(...).decode()`) -/

/-- The standard base64 alphabet, index 0 to 63. -/
def b64alphabet : List Char :=
  ['A', 'B', 'C', 'D', 'E', 'F', 'G', 'H', 'I', 'J', 'K', 'L', 'M',
   'N', 'O', 'P', 'Q', 'R', 'S', 'T', 'U', 'V', 'W', 'X', 'Y', 'Z',
   'a', 'b', 'c', 'd', 'e', 'f', 'g', 'h', 'i', 'j', 'k', 'l', 'm',
   'n', 'o', 'p', 'q', 'r', 's', 't', 'u', 'v', 'w', 'x', 'y', 'z',
   '0', '1', '2', '3', '4', '5', '6', '7', '8', '9', '+', '/']

/-- Character for a six-bit group. -/
def encodeSextet (n : Nat) : Char := b64alphabet.getD n 'A'

/-- Position of a character in the base64 alphabet, if present. -/
def lookupIdx : List Char → Char → Option Nat
  | [], _ => none
  | a :: rest, c =>
      if a = c then some 0 else (lookupIdx rest c).map (fun n => n + 1)

/-- Six-bit value of a base64 character, if it is one. -/
def decodeSextet (c : Char) : Option Nat := lookupIdx b64alphabet c

/-- Standard (RFC 4648) base64 encoding of a byte list, with `=` padding
and no line wrapping: exactly what Python `base64.b64encode` emits. -/
def b64encodeChars : List Nat → List Char
  | [] => []
  | [b1] =>
      [encodeSextet (b1 / 4), encodeSextet (b1 % 4 * 16), '=', '=']
  | [b1, b2] =>
      [encodeSextet (b1 / 4), encodeSextet (b1 % 4 * 16 + b2 / 16),
       encodeSextet (b2 % 16 * 4), '=']
  | b1 :: b2 :: b3 :: rest =>
      encodeSextet (b1 / 4) ::
      encodeSextet (b1 % 4 * 16 + b2 / 16) ::
      encodeSextet (b2 % 16 * 4 + b3 / 64) ::
      encodeSextet (b3 % 64) ::
      b64encodeChars rest

/-- Standard base64 decoding of a character list (the mathematical inverse
used to state the round-trip property; the Python source only encodes). -/
def b64decodeChars : List Char → Option (List Nat)
  | [] => some []
  | c1 :: c2 :: c3 :: c4 :: rest =>
      match decodeSextet c1, decodeSextet c2, decodeSextet c3, decodeSextet c4 with
      | some s1, some s2, some s3, some s4 =>
          match b64decodeChars rest with
          | some bs =>
              some ((s1 * 4 + s2 / 16) ::
                    (s2 % 16 * 16 + s3 / 4) ::
                    (s3 % 4 * 64 + s4) :: bs)
          | none => none
      | some s1, some s2, some s3, none =>
          if c4 = '=' ∧ rest = [] then
            some [s1 * 4 + s2 / 16, s2 % 16 * 16 + s3 / 4]
          else none
      | some s1, some s2, none, none =>
          if c3 = '=' ∧ c4 = '=' ∧ rest = [] then
            some [s1 * 4 + s2 / 16]
          else none
      | _, _, _, _ => none
  | _ => none

/-! ## Data model: turns and session state -/

/-- One element of a multimodal content list (`{"type": "text", ...}` or
`{"type": "image_url", ...}` in the OpenAI wire format). -/
inductive ContentPart where
  | text (value : String)
  | image_url (url : String)
  deriving DecidableEq, Repr

/-- A turn's content: plain string (system/assistant) or part list (user). -/
inductive Content where
  | str (s : String)
  | parts (l : List ContentPart)
  deriving DecidableEq, Repr

/-- One chat message. -/
structure Turn where
  role : String
  content : Content
  deriving DecidableEq, Repr

/-- The Streamlit session state relevant to the conversation logic
(demo.py lines 72-77): `st.session_state.messages`,
`st.session_state.image_data_url`, `st.session_state.image_sent`. -/
structure SessionState where
  messages : List Turn
  image_data_url : Option String
  image_sent : Bool
  deriving DecidableEq, Repr

/-- Initial session state (demo.py lines 72-77). -/
def initState : SessionState :=
  { messages := [], image_data_url := none, image_sent := false }

/-- Python truthiness of the `image_data_url` slot: `None` and the empty
string are falsy. -/
def optTruthy : Option String → Bool
  | none => false
  | some s => !(s = "")

/-- A Streamlit uploaded file: declared MIME type and raw bytes
(`uploaded_file.type`, `uploaded_file.getvalue()`).  Bytes are naturals
below 256. -/
structure UploadedFile where
  type : String
  bytes : List Nat
  deriving DecidableEq, Repr

/-- demo.py lines 65-69: `f"data:\x7bmime_type\x7d;base64,\x7bencoded\x7d"`
with `encoded = base64.b64encode(uploaded_file.getvalue()).decode()`. -/
def image_to_data_url (f : UploadedFile) : String :=
  "data:" ++ f.type ++ ";base64," ++ String.mk (b64encodeChars f.bytes)

/-- Concatenation of a list of strings in order. -/
def concatAll (l : List String) : String := l.foldr (fun a b => a ++ b) ""

/-- A one-byte PNG sample upload. -/
def pngFile : UploadedFile := { type := "image/png", bytes := [137] }

/-- A two-byte JPEG sample upload with a different fingerprint. -/
def jpegFile : UploadedFile := { type := "image/jpeg", bytes := [255, 216] }

/-! ## Event handlers -/

/-- demo.py lines 85-88: when a file sits in the uploader, store its data
URL and clear the `image_sent` flag.  (History is NOT touched here.) -/
def handleUpload (f : UploadedFile) (s : SessionState) : SessionState :=
  { s with image_data_url := some (image_to_data_url f), image_sent := false }

/-- demo.py lines 90-92: the Reset Chat button clears `messages` and the
`image_sent` flag.  (`image_data_url` is kept.) -/
def handleReset (s : SessionState) : SessionState :=
  { s with messages := [], image_sent := false }

/-- Observable outcome of the streaming `client.chat.completions.create`
call: either it completes yielding a list of delta fragments (each chunk's
`delta.content`, possibly `None` or empty), or it raises after yielding
some fragments, with the exception's message. -/
inductive RemoteResult where
  | ok (frags : List (Option String))
  | err (fragsBefore : List (Option String)) (msg : String)
  deriving DecidableEq, Repr

/-- demo.py lines 149-153: fold over the stream, appending each fragment
that passes the `if delta and delta.content` truthiness test. -/
def accumulate (frags : List (Option String)) : String :=
  frags.foldl
    (fun acc o =>
      match o with
      | none => acc
      | some c => if c = "" then acc else acc ++ c) ""

/-- The assistant text appended to history: the accumulated stream on
success, or the error string built at demo.py line 157 on exception
(the partial accumulation is overwritten). -/
def assistantText : RemoteResult → String
  | .ok frags => accumulate frags
  | .err _ msg => "❌ Error: " ++ msg

/-- The fixed system turn prepended at demo.py lines 140-143. -/
def systemTurn : Turn :=
  { role := "system",
    content := .str "You are an AI assistant that can see images and answer questions about them." }

/-- What the submit handler did. -/
inductive Outcome where
  | noInput
  | missingImage
  | completed (sent : List Turn)
  deriving DecidableEq, Repr

/-- demo.py line 112: `not st.session_state.image_data_url and not
st.session_state.messages`. -/
def guardFails (s : SessionState) : Bool :=
  !optTruthy s.image_data_url && s.messages.isEmpty

/-- demo.py lines 110-160, the chat-input handler:
`if user_prompt:` gates the whole block; the MissingImage guard calls
`st.stop()`; otherwise the user turn is built (image attached exactly when
`not image_sent and image_data_url`), appended, the remote call is made
with the system turn prepended to all of `messages`, and the assistant
turn (accumulated text or error text) is appended. -/
def handlePrompt (user_prompt : String) (remote : RemoteResult)
    (s : SessionState) : SessionState × Outcome :=
  if user_prompt = "" then (s, .noInput)
  else if guardFails s then (s, .missingImage)
  else
    let attach := !s.image_sent && optTruthy s.image_data_url
    let user_msg_content : List ContentPart :=
      if attach then
        [.image_url (s.image_data_url.getD ""), .text user_prompt]
      else
        [.text user_prompt]
    let image_sent1 : Bool := if attach then true else s.image_sent
    let messages1 := s.messages ++ [⟨"user", .parts user_msg_content⟩]
    let sent := systemTurn :: messages1
    let resp := assistantText remote
    let messages2 := messages1 ++ [⟨"assistant", .str resp⟩]
    ({ s with messages := messages2, image_sent := image_sent1 },
     .completed sent)

/-! ## Event sequences -/

/-- One user-visible event: an upload, a reset click, or a chat submit
(with the remote call's observable outcome). -/
inductive Event where
  | upload (f : UploadedFile)
  | reset
  | submit (text : String) (remote : RemoteResult)
  deriving Repr

/-- Dispatch one event to its handler. -/
def step (s : SessionState) : Event → SessionState
  | .upload f => handleUpload f s
  | .reset => handleReset s
  | .submit t r => (handlePrompt t r s).1

/-- Run a sequence of events from the fresh session state. -/
def run (es : List Event) : SessionState := es.foldl step initState

/-! ## Observations used by the properties -/

/-- Is a content part an image reference? -/
def partIsImage : ContentPart → Bool
  | .image_url _ => true
  | .text _ => false

/-- Number of ImageRef parts in one turn. -/
def turnImageCount (t : Turn) : Nat :=
  match t.content with
  | .str _ => 0
  | .parts l => (l.filter partIsImage).length

/-- Number of ImageRef parts across a whole history. -/
def historyImageCount (ms : List Turn) : Nat :=
  (ms.map turnImageCount).sum

/-- The spec's delivery-state abstraction of the two code variables:
`NoImage` when no (truthy) data URL is tracked, else `ImagePending` or
`ImageDelivered` with the tracked URL according to `image_sent`. -/
inductive DeliveryState where
  | NoImage
  | ImagePending (url : String)
  | ImageDelivered (url : String)
  deriving DecidableEq, Repr

/-- Abstraction map from session state to the spec's delivery state. -/
def deliveryState (s : SessionState) : DeliveryState :=
  match s.image_data_url with
  | none => .NoImage
  | some u => if u = "" then .NoImage
              else if s.image_sent then .ImageDelivered u
              else .ImagePending u

/-- A history alternates user/assistant in pairs starting with user. -/
def rolesAlternate : List Turn → Bool
  | [] => true
  | u :: a :: rest =>
      u.role = "user" && a.role = "assistant" && rolesAlternate rest
  | [_] => false

/-! ## Base64 lemmas -/

theorem decode_encode_sextet_fin :
    ∀ n : Fin 64, decodeSextet (encodeSextet n.val) = some n.val := by
  decide

theorem decode_encode_sextet (n : Nat) (h : n < 64) :
    decodeSextet (encodeSextet n) = some n :=
  decode_encode_sextet_fin ⟨n, h⟩

theorem decodeSextet_pad : decodeSextet '=' = none := by decide

theorem encodeSextet_mem_fin :
    ∀ n : Fin 64, encodeSextet n.val ∈ b64alphabet := by
  decide

theorem encodeSextet_mem (n : Nat) (h : n < 64) :
    encodeSextet n ∈ b64alphabet :=
  encodeSextet_mem_fin ⟨n, h⟩

/-- Decoding inverts encoding on byte lists. -/
theorem b64_roundtrip :
    ∀ (bytes : List Nat), (∀ b ∈ bytes, b < 256) →
      b64decodeChars (b64encodeChars bytes) = some bytes
  | [], _ => rfl
  | [b1], h => by
      have hb1 : b1 < 256 := h b1 (by simp)
      simp only [b64encodeChars, b64decodeChars,
        decode_encode_sextet (b1 / 4) (by omega),
        decode_encode_sextet (b1 % 4 * 16) (by omega),
        decodeSextet_pad]
      simp only [and_self, if_true, Option.some.injEq, List.cons.injEq,
        and_true]
      omega
  | [b1, b2], h => by
      have hb1 : b1 < 256 := h b1 (by simp)
      have hb2 : b2 < 256 := h b2 (by simp)
      simp only [b64encodeChars, b64decodeChars,
        decode_encode_sextet (b1 / 4) (by omega),
        decode_encode_sextet (b1 % 4 * 16 + b2 / 16) (by omega),
        decode_encode_sextet (b2 % 16 * 4) (by omega),
        decodeSextet_pad]
      simp only [and_self, if_true, Option.some.injEq, List.cons.injEq,
        and_true]
      omega
  | b1 :: b2 :: b3 :: rest, h => by
      have hb1 : b1 < 256 := h b1 (by simp)
      have hb2 : b2 < 256 := h b2 (by simp)
      have hb3 : b3 < 256 := h b3 (by simp)
      have ih := b64_roundtrip rest (fun b hb => h b (by simp [hb]))
      simp only [b64encodeChars, b64decodeChars,
        decode_encode_sextet (b1 / 4) (by omega),
        decode_encode_sextet (b1 % 4 * 16 + b2 / 16) (by omega),
        decode_encode_sextet (b2 % 16 * 4 + b3 / 64) (by omega),
        decode_encode_sextet (b3 % 64) (by omega), ih]
      simp only [Option.some.injEq, List.cons.injEq]
      refine ⟨by omega, by omega, by omega, trivial⟩

/-- Every character the encoder emits is in the alphabet or padding. -/
theorem b64encode_chars_shape :
    ∀ (bytes : List Nat), (∀ b ∈ bytes, b < 256) →
      ∀ c ∈ b64encodeChars bytes, c ∈ b64alphabet ∨ c = '='
  | [], _ => by simp [b64encodeChars]
  | [b1], h => by
      have hb1 : b1 < 256 := h b1 (by simp)
      simp only [b64encodeChars, List.mem_cons, List.not_mem_nil, or_false]
      rintro c (rfl | rfl | rfl | rfl)
      · exact Or.inl (encodeSextet_mem _ (by omega))
      · exact Or.inl (encodeSextet_mem _ (by omega))
      · exact Or.inr rfl
      · exact Or.inr rfl
  | [b1, b2], h => by
      have hb1 : b1 < 256 := h b1 (by simp)
      have hb2 : b2 < 256 := h b2 (by simp)
      simp only [b64encodeChars, List.mem_cons, List.not_mem_nil, or_false]
      rintro c (rfl | rfl | rfl | rfl)
      · exact Or.inl (encodeSextet_mem _ (by omega))
      · exact Or.inl (encodeSextet_mem _ (by omega))
      · exact Or.inl (encodeSextet_mem _ (by omega))
      · exact Or.inr rfl
  | b1 :: b2 :: b3 :: rest, h => by
      have hb1 : b1 < 256 := h b1 (by simp)
      have hb2 : b2 < 256 := h b2 (by simp)
      have hb3 : b3 < 256 := h b3 (by simp)
      have ih := b64encode_chars_shape rest (fun b hb => h b (by simp [hb]))
      simp only [b64encodeChars, List.mem_cons]
      rintro c (rfl | rfl | rfl | rfl | hc)
      · exact Or.inl (encodeSextet_mem _ (by omega))
      · exact Or.inl (encodeSextet_mem _ (by omega))
      · exact Or.inl (encodeSextet_mem _ (by omega))
      · exact Or.inl (encodeSextet_mem _ (by omega))
      · exact ih c hc

/-! ## Delivery-state abstraction lemmas -/

theorem deliveryState_pending_iff (s : SessionState) (u : String) :
    deliveryState s = .ImagePending u ↔
      s.image_data_url = some u ∧ ¬ u = "" ∧ s.image_sent = false := by
  obtain ⟨ms, du, sent⟩ := s
  cases du with
  | none => simp [deliveryState]
  | some u0 =>
      by_cases h0 : u0 = ""
      · subst h0
        simp only [deliveryState, if_pos rfl]
        constructor
        · intro h; cases h
        · rintro ⟨h1, h2, h3⟩
          exact absurd (Option.some.inj h1).symm h2
      · cases sent with
        | false =>
            simp only [deliveryState, if_neg h0, Bool.false_eq_true, if_false]
            constructor
            · intro h; injection h with h1; subst h1; exact ⟨rfl, h0, by trivial⟩
            · rintro ⟨h1, h2, h3⟩; injection h1 with h1; subst h1; rfl
        | true => simp [deliveryState, h0]

theorem deliveryState_delivered_iff (s : SessionState) (u : String) :
    deliveryState s = .ImageDelivered u ↔
      s.image_data_url = some u ∧ ¬ u = "" ∧ s.image_sent = true := by
  obtain ⟨ms, du, sent⟩ := s
  cases du with
  | none => simp [deliveryState]
  | some u0 =>
      by_cases h0 : u0 = ""
      · subst h0
        simp only [deliveryState, if_pos rfl]
        constructor
        · intro h; cases h
        · rintro ⟨h1, h2, h3⟩
          exact absurd (Option.some.inj h1).symm h2
      · cases sent with
        | false => simp [deliveryState, h0]
        | true =>
            simp only [deliveryState, if_neg h0, if_pos rfl]
            constructor
            · intro h; injection h with h1; subst h1; exact ⟨rfl, h0, by trivial⟩
            · rintro ⟨h1, h2, h3⟩; injection h1 with h1; subst h1; rfl

theorem deliveryState_noimage_iff (s : SessionState) :
    deliveryState s = .NoImage ↔ optTruthy s.image_data_url = false := by
  obtain ⟨ms, du, sent⟩ := s
  cases du with
  | none => simp [deliveryState, optTruthy]
  | some u0 =>
      by_cases h0 : u0 = ""
      · subst h0; simp [deliveryState, optTruthy]
      · cases sent with
        | false => simp [deliveryState, optTruthy, h0]
        | true => simp [deliveryState, optTruthy, h0]

/-! ## Submit-handler shape lemmas -/

theorem handlePrompt_messages_eq (s : SessionState) (text : String)
    (remote : RemoteResult) (ht : ¬ text = "") (hg : guardFails s = false) :
    (handlePrompt text remote s).1.messages =
      s.messages ++
        [⟨"user", .parts (if !s.image_sent && optTruthy s.image_data_url then
             [.image_url (s.image_data_url.getD ""), .text text]
           else [.text text])⟩,
         ⟨"assistant", .str (assistantText remote)⟩] := by
  simp [handlePrompt, ht, hg]

theorem handlePrompt_outcome_eq (s : SessionState) (text : String)
    (remote : RemoteResult) (ht : ¬ text = "") (hg : guardFails s = false) :
    (handlePrompt text remote s).2 =
      .completed (systemTurn ::
        (s.messages ++
          [⟨"user", .parts (if !s.image_sent && optTruthy s.image_data_url then
               [.image_url (s.image_data_url.getD ""), .text text]
             else [.text text])⟩])) := by
  simp [handlePrompt, ht, hg]

theorem handlePrompt_image_sent_eq (s : SessionState) (text : String)
    (remote : RemoteResult) (ht : ¬ text = "") (hg : guardFails s = false) :
    (handlePrompt text remote s).1.image_sent =
      (s.image_sent || optTruthy s.image_data_url) := by
  cases hs : s.image_sent <;> cases hu : optTruthy s.image_data_url <;>
    simp [handlePrompt, ht, hg, hs, hu]

theorem handlePrompt_image_url_eq (s : SessionState) (text : String)
    (remote : RemoteResult) :
    (handlePrompt text remote s).1.image_data_url = s.image_data_url := by
  unfold handlePrompt
  split
  · rfl
  · split
    · rfl
    · rfl

theorem handlePrompt_messages_cases (s : SessionState) (text : String)
    (remote : RemoteResult) :
    (handlePrompt text remote s).1.messages = s.messages ∨
    ∃ c r, (handlePrompt text remote s).1.messages =
      s.messages ++ [⟨"user", .parts c⟩, ⟨"assistant", .str r⟩] := by
  unfold handlePrompt
  split
  · exact Or.inl rfl
  · split
    · exact Or.inl rfl
    · right
      refine ⟨if !s.image_sent && optTruthy s.image_data_url then
            [ContentPart.image_url (s.image_data_url.getD ""),
             ContentPart.text text]
          else [ContentPart.text text], assistantText remote, ?_⟩
      simp

/-! ## History alternation lemmas -/

theorem rolesAlternate_append_pair :
    ∀ (ms : List Turn), rolesAlternate ms = true →
      ∀ (c c2 : Content),
        rolesAlternate (ms ++ [⟨"user", c⟩, ⟨"assistant", c2⟩]) = true
  | [], _, c, c2 => by simp [rolesAlternate]
  | [t], h, _, _ => by simp [rolesAlternate] at h
  | t1 :: t2 :: rest, h, c, c2 => by
      simp only [rolesAlternate, Bool.and_eq_true, decide_eq_true_eq] at h
      simp only [List.cons_append, rolesAlternate, Bool.and_eq_true,
        decide_eq_true_eq]
      exact ⟨h.1, rolesAlternate_append_pair rest h.2 c c2⟩

theorem rolesAlternate_even :
    ∀ (ms : List Turn), rolesAlternate ms = true → ms.length % 2 = 0
  | [], _ => rfl
  | [t], h => by simp [rolesAlternate] at h
  | t1 :: t2 :: rest, h => by
      simp only [rolesAlternate, Bool.and_eq_true, decide_eq_true_eq] at h
      have := rolesAlternate_even rest h.2
      simp only [List.length_cons]
      omega

theorem step_alternates (s : SessionState) (e : Event)
    (h : rolesAlternate s.messages = true) :
    rolesAlternate (step s e).messages = true := by
  cases e with
  | upload f => exact h
  | reset => rfl
  | submit t r =>
      show rolesAlternate (handlePrompt t r s).1.messages = true
      rcases handlePrompt_messages_cases s t r with hm | ⟨c, rstr, hm⟩
      · rw [hm]; exact h
      · rw [hm]; exact rolesAlternate_append_pair s.messages h _ _

theorem run_alternates_aux :
    ∀ (es : List Event) (s : SessionState),
      rolesAlternate s.messages = true →
      rolesAlternate (es.foldl step s).messages = true
  | [], s, h => h
  | e :: rest, s, h => by
      simp only [List.foldl_cons]
      exact run_alternates_aux rest (step s e) (step_alternates s e h)

theorem run_alternates (es : List Event) :
    rolesAlternate (run es).messages = true :=
  run_alternates_aux es initState rfl

/-! ## Stream accumulation lemma -/

theorem concatAll_cons (a : String) (l : List String) :
    concatAll (a :: l) = a ++ concatAll l := rfl

theorem accumulate_foldl_eq :
    ∀ (frags : List (Option String)) (acc : String),
      frags.foldl
        (fun acc o =>
          match o with
          | none => acc
          | some c => if c = "" then acc else acc ++ c) acc
        = acc ++ concatAll ((frags.filterMap id).filter (fun c => !(c = "")))
  | [], acc => by simp [concatAll]
  | none :: rest, acc => by
      simp only [List.foldl_cons, List.filterMap_cons]
      exact accumulate_foldl_eq rest acc
  | some c :: rest, acc => by
      by_cases hc : c = ""
      · subst hc
        simp only [List.foldl_cons, List.filterMap_cons, id_eq,
          List.filter_cons]
        simpa using accumulate_foldl_eq rest acc
      · simp only [List.foldl_cons, List.filterMap_cons, id_eq,
          List.filter_cons]
        rw [if_neg hc, if_pos (by simp [hc])]
        rw [accumulate_foldl_eq rest (acc ++ c), concatAll_cons,
          ← String.append_assoc]

theorem accumulate_eq_concat (frags : List (Option String)) :
    accumulate frags =
      concatAll ((frags.filterMap id).filter (fun c => !(c = ""))) := by
  have h := accumulate_foldl_eq frags ""
  simpa [accumulate] using h

/-! ## Claim theorems -/

/-- C1: the claimed invariant — at most one ImageRef across the whole
history for every Upload/Reset/Submit sequence — is violated by the code.
After Upload(png), Submit, Upload(jpeg), Submit the history holds two
ImageRef parts: the upload handler (demo.py 85-88) clears only
`image_sent` and never clears `messages`, although the module docstring
promises that a new image resets the context. -/
theorem history_two_imagerefs :
    historyImageCount (run
      [.upload pngFile,
       .submit "what is this?" (.ok [some "A ", some "cat."]),
       .upload jpegFile,
       .submit "and this?" (.ok [some "A dog."])]).messages = 2 := by
  rfl

/-- C2: the claim that an Upload with a differing fingerprint leaves the
history empty is violated: the handler tracks the new asset and resets the
flag, but keeps the 2-turn history untouched. -/
theorem upload_differing_keeps_history :
    (handleUpload jpegFile
        (run [.upload pngFile, .submit "q" (.ok [some "r"])])).messages
      = (run [.upload pngFile, .submit "q" (.ok [some "r"])]).messages ∧
    (run [.upload pngFile, .submit "q" (.ok [some "r"])]).messages.length = 2 ∧
    ¬ image_to_data_url jpegFile = image_to_data_url pngFile ∧
    (handleUpload jpegFile
        (run [.upload pngFile, .submit "q" (.ok [some "r"])])).image_data_url
      = some (image_to_data_url jpegFile) ∧
    (handleUpload jpegFile
        (run [.upload pngFile, .submit "q" (.ok [some "r"])])).image_sent = false :=
  ⟨rfl, rfl, by decide, rfl, rfl⟩

/-- C3 counterexample: re-uploading the identically fingerprinted file is
NOT a no-op — after the image was delivered (`image_sent = true`), the
same upload resets `image_sent` to false, changing the delivery state. -/
theorem reupload_same_changes_delivery :
    (run [.upload pngFile, .submit "q" (.ok [some "r"])]).image_sent = true ∧
    (handleUpload pngFile
        (run [.upload pngFile, .submit "q" (.ok [some "r"])])).image_sent = false :=
  ⟨rfl, rfl⟩

/-- C3 amended: an Upload whose asset has the same data-URL fingerprint as
the tracked image leaves `history` and the tracked URL unchanged, but
unconditionally resets the delivery flag to not-sent (the image will be
re-attached on the next submit). -/
theorem reupload_same_resets_flag (s : SessionState) (f : UploadedFile)
    (h : s.image_data_url = some (image_to_data_url f)) :
    (handleUpload f s).messages = s.messages ∧
    (handleUpload f s).image_data_url = s.image_data_url ∧
    (handleUpload f s).image_sent = false :=
  ⟨rfl, h.symm, rfl⟩

/-- Witness for `reupload_same_resets_flag` at a concrete re-upload. -/
theorem reupload_same_resets_flag_witness :
    (handleUpload pngFile initState).image_data_url
      = some (image_to_data_url pngFile) ∧
    ((handleUpload pngFile (handleUpload pngFile initState)).messages
        = (handleUpload pngFile initState).messages ∧
     (handleUpload pngFile (handleUpload pngFile initState)).image_data_url
        = (handleUpload pngFile initState).image_data_url ∧
     (handleUpload pngFile (handleUpload pngFile initState)).image_sent = false) :=
  ⟨rfl, reupload_same_resets_flag (handleUpload pngFile initState) pngFile rfl⟩

/-- C5: a Submit with non-empty text, no (truthy) tracked image and empty
history stops with the missing-image warning and leaves the state exactly
as it was: no turn is appended. -/
theorem submit_missing_image (s : SessionState) (text : String)
    (remote : RemoteResult) (ht : ¬ text = "")
    (hno : optTruthy s.image_data_url = false) (hemp : s.messages = []) :
    handlePrompt text remote s = (s, .missingImage) := by
  simp [handlePrompt, ht, guardFails, hno, hemp]

/-- Witness for `submit_missing_image` on the fresh session state. -/
theorem submit_missing_image_witness :
    ¬ "hello" = "" ∧ optTruthy initState.image_data_url = false ∧
    initState.messages = [] ∧
    handlePrompt "hello" (.ok [some "r"]) initState = (initState, .missingImage) :=
  ⟨by decide, rfl, rfl,
   submit_missing_image initState "hello" (.ok [some "r"]) (by decide) rfl rfl⟩

/-- C8: for any byte buffer and any of the three image MIME types, the
encoder yields `data:` ++ mime ++ `;base64,` ++ payload, where payload is
standard unwrapped base64 (alphabet characters plus `=` padding only) and
decoding it recovers the bytes exactly. -/
theorem image_to_data_url_correct (f : UploadedFile)
    (hm : f.type = "image/png" ∨ f.type = "image/jpeg" ∨ f.type = "image/webp")
    (hb : ∀ b ∈ f.bytes, b < 256) :
    image_to_data_url f =
      "data:" ++ f.type ++ ";base64," ++ String.mk (b64encodeChars f.bytes) ∧
    b64decodeChars (b64encodeChars f.bytes) = some f.bytes ∧
    (∀ c ∈ b64encodeChars f.bytes, c ∈ b64alphabet ∨ c = '=') :=
  ⟨rfl, b64_roundtrip f.bytes hb, b64encode_chars_shape f.bytes hb⟩

/-- Witness for `image_to_data_url_correct` on the PNG sample. -/
theorem image_to_data_url_correct_witness :
    (pngFile.type = "image/png" ∨ pngFile.type = "image/jpeg" ∨
      pngFile.type = "image/webp") ∧
    (∀ b ∈ pngFile.bytes, b < 256) ∧
    image_to_data_url pngFile = "data:image/png;base64,iQ==" ∧
    b64decodeChars (b64encodeChars pngFile.bytes) = some pngFile.bytes := by
  have h := image_to_data_url_correct pngFile (Or.inl rfl) (by decide)
  exact ⟨Or.inl rfl, by decide, h.1.trans (by decide), h.2.1⟩

/-- C4: for a Submit passing the precondition, when the delivery state is
ImagePending u the appended user turn is exactly
[ImageRef u, Text text] and the state moves to ImageDelivered u; in every
other delivery state the appended user turn is exactly [Text text]. -/
theorem submit_turn_content (s : SessionState) (text : String)
    (remote : RemoteResult) (ht : ¬ text = "") (hg : guardFails s = false) :
    (∀ u, deliveryState s = .ImagePending u →
        (handlePrompt text remote s).1.messages =
          s.messages ++ [⟨"user", .parts [.image_url u, .text text]⟩,
                         ⟨"assistant", .str (assistantText remote)⟩] ∧
        deliveryState (handlePrompt text remote s).1 = .ImageDelivered u) ∧
    ((∀ u, ¬ deliveryState s = .ImagePending u) →
        (handlePrompt text remote s).1.messages =
          s.messages ++ [⟨"user", .parts [.text text]⟩,
                         ⟨"assistant", .str (assistantText remote)⟩]) := by
  constructor
  · intro u hu
    rw [deliveryState_pending_iff] at hu
    obtain ⟨hdu, hne, hsent⟩ := hu
    constructor
    · rw [handlePrompt_messages_eq s text remote ht hg]
      simp [hdu, hsent, optTruthy, hne]
    · rw [deliveryState_delivered_iff]
      refine ⟨?_, hne, ?_⟩
      · rw [handlePrompt_image_url_eq]; exact hdu
      · rw [handlePrompt_image_sent_eq s text remote ht hg, hsent, hdu]
        simp [optTruthy, hne]
  · intro hno
    have hatt : (!s.image_sent && optTruthy s.image_data_url) = false := by
      cases hdu : s.image_data_url with
      | none => simp [optTruthy]
      | some u0 =>
          by_cases h0 : u0 = ""
          · simp [optTruthy, h0]
          · cases hs : s.image_sent with
            | true => simp
            | false =>
                exact absurd ((deliveryState_pending_iff s u0).mpr
                  ⟨hdu, h0, hs⟩) (hno u0)
    rw [handlePrompt_messages_eq s text remote ht hg]
    simp [hatt]

/-- Witness for `submit_turn_content`: a submit right after the first
upload attaches the ImageRef and marks it delivered. -/
theorem submit_turn_content_witness :
    ¬ "hi" = "" ∧ guardFails (handleUpload pngFile initState) = false ∧
    deliveryState (handleUpload pngFile initState)
      = .ImagePending (image_to_data_url pngFile) ∧
    (handlePrompt "hi" (.ok [some "r"]) (handleUpload pngFile initState)).1.messages =
      [⟨"user", .parts [.image_url (image_to_data_url pngFile), .text "hi"]⟩,
       ⟨"assistant", .str "r"⟩] ∧
    deliveryState
        (handlePrompt "hi" (.ok [some "r"]) (handleUpload pngFile initState)).1
      = .ImageDelivered (image_to_data_url pngFile) := by
  have h := (submit_turn_content (handleUpload pngFile initState) "hi"
      (.ok [some "r"]) (by decide) rfl).1 (image_to_data_url pngFile) (by decide)
  exact ⟨by decide, rfl, by decide, h.1.trans (by decide), h.2⟩

/-- C6: a Submit passing the precondition appends exactly one assistant
turn after the user turn: on stream completion its content is the
concatenation of all non-empty fragments in arrival order; on failure the
partial accumulation is discarded (the result does not depend on the
fragments seen before the error) and the error text is appended instead. -/
theorem submit_appends_one_assistant_turn (s : SessionState) (text : String)
    (ht : ¬ text = "") (hg : guardFails s = false) :
    ∀ remote : RemoteResult,
      (handlePrompt text remote s).1.messages =
        s.messages ++
          [⟨"user", .parts (if !s.image_sent && optTruthy s.image_data_url then
               [.image_url (s.image_data_url.getD ""), .text text]
             else [.text text])⟩,
           ⟨"assistant", .str (match remote with
              | .ok frags =>
                  concatAll ((frags.filterMap id).filter (fun c => !(c = "")))
              | .err _ msg => "❌ Error: " ++ msg)⟩] := by
  intro remote
  rw [handlePrompt_messages_eq s text remote ht hg]
  cases remote with
  | ok frags => simp [assistantText, accumulate_eq_concat]
  | err pre msg => simp [assistantText]

/-- Witness for `submit_appends_one_assistant_turn`: one successful stream
(with empty and missing fragments skipped) and one mid-stream failure. -/
theorem submit_appends_one_assistant_turn_witness :
    ¬ "q" = "" ∧ guardFails (handleUpload pngFile initState) = false ∧
    (handlePrompt "q" (.ok [some "A ", none, some "", some "cat."])
        (handleUpload pngFile initState)).1.messages =
      [⟨"user", .parts [.image_url (image_to_data_url pngFile), .text "q"]⟩,
       ⟨"assistant", .str "A cat."⟩] ∧
    (handlePrompt "q" (.err [some "A "] "boom")
        (handleUpload pngFile initState)).1.messages =
      [⟨"user", .parts [.image_url (image_to_data_url pngFile), .text "q"]⟩,
       ⟨"assistant", .str "❌ Error: boom"⟩] := by
  have h := submit_appends_one_assistant_turn (handleUpload pngFile initState)
    "q" (by decide) rfl
  exact ⟨by decide, rfl,
    (h (.ok [some "A ", none, some "", some "cat."])).trans (by decide),
    (h (.err [some "A "] "boom")).trans (by decide)⟩

/-- C7: Reset leaves the history empty; if an image is tracked (pending or
delivered) the delivery state returns to ImagePending with that image, so
a Submit issued immediately after re-attaches the ImageRef; with no image
tracked the state stays NoImage. -/
theorem reset_behavior (s : SessionState) (text : String)
    (remote : RemoteResult) (ht : ¬ text = "") :
    (handleReset s).messages = [] ∧
    (∀ u, deliveryState s = .ImagePending u ∨
          deliveryState s = .ImageDelivered u →
        deliveryState (handleReset s) = .ImagePending u ∧
        (handlePrompt text remote (handleReset s)).1.messages =
          [⟨"user", .parts [.image_url u, .text text]⟩,
           ⟨"assistant", .str (assistantText remote)⟩]) ∧
    (deliveryState s = .NoImage → deliveryState (handleReset s) = .NoImage) := by
  refine ⟨rfl, ?_, ?_⟩
  · intro u hu
    have hdu_hne : s.image_data_url = some u ∧ ¬ u = "" := by
      rcases hu with h | h
      · have h2 := (deliveryState_pending_iff s u).mp h
        exact ⟨h2.1, h2.2.1⟩
      · have h2 := (deliveryState_delivered_iff s u).mp h
        exact ⟨h2.1, h2.2.1⟩
    obtain ⟨hdu, hne⟩ := hdu_hne
    have hdu2 : (handleReset s).image_data_url = some u := hdu
    constructor
    · exact (deliveryState_pending_iff _ u).mpr ⟨hdu2, hne, rfl⟩
    · have hg2 : guardFails (handleReset s) = false := by
        simp [guardFails, handleReset, optTruthy, hdu, hne]
      rw [handlePrompt_messages_eq (handleReset s) text remote ht hg2]
      simp [handleReset, hdu, optTruthy, hne]
  · intro h
    rw [deliveryState_noimage_iff] at h ⊢
    exact h

/-- Witness for `reset_behavior`: reset after a delivered image, then an
immediate submit re-attaches the ImageRef. -/
theorem reset_behavior_witness :
    ¬ "again" = "" ∧
    deliveryState (run [.upload pngFile, .submit "q" (.ok [some "r"])])
      = .ImageDelivered (image_to_data_url pngFile) ∧
    (handleReset (run [.upload pngFile, .submit "q" (.ok [some "r"])])).messages
      = [] ∧
    deliveryState (handleReset (run [.upload pngFile, .submit "q" (.ok [some "r"])]))
      = .ImagePending (image_to_data_url pngFile) ∧
    (handlePrompt "again" (.ok [some "ok"])
        (handleReset (run [.upload pngFile, .submit "q" (.ok [some "r"])]))).1.messages =
      [⟨"user", .parts [.image_url (image_to_data_url pngFile), .text "again"]⟩,
       ⟨"assistant", .str "ok"⟩] := by
  have h := reset_behavior (run [.upload pngFile, .submit "q" (.ok [some "r"])])
    "again" (.ok [some "ok"]) (by decide)
  have h2 := h.2.1 (image_to_data_url pngFile) (Or.inr (by decide))
  exact ⟨by decide, by decide, h.1, h2.1, h2.2.trans (by decide)⟩

/-- C9: the message list handed to the remote endpoint is exactly the
fixed system turn followed by the entire history including the
just-appended user turn, in order; building it is a pure projection of the
state (the tracked image is untouched, and the post-state history is that
same list without the system turn, plus the assistant turn). -/
theorem submit_sent_messages (s : SessionState) (text : String)
    (remote : RemoteResult) (ht : ¬ text = "") (hg : guardFails s = false) :
    (handlePrompt text remote s).2 =
      .completed
        (⟨"system",
          .str "You are an AI assistant that can see images and answer questions about them."⟩ ::
         (s.messages ++
           [⟨"user", .parts (if !s.image_sent && optTruthy s.image_data_url then
                [.image_url (s.image_data_url.getD ""), .text text]
              else [.text text])⟩])) ∧
    (handlePrompt text remote s).1.messages =
      (s.messages ++
        [⟨"user", .parts (if !s.image_sent && optTruthy s.image_data_url then
             [.image_url (s.image_data_url.getD ""), .text text]
           else [.text text])⟩]) ++
        [⟨"assistant", .str (assistantText remote)⟩] ∧
    (handlePrompt text remote s).1.image_data_url = s.image_data_url := by
  refine ⟨handlePrompt_outcome_eq s text remote ht hg, ?_,
    handlePrompt_image_url_eq s text remote⟩
  have h := handlePrompt_messages_eq s text remote ht hg
  simpa [List.append_assoc] using h

/-- Witness for `submit_sent_messages` on a concrete second-turn submit. -/
theorem submit_sent_messages_witness :
    ¬ "q2" = "" ∧
    guardFails (run [.upload pngFile, .submit "q" (.ok [some "r"])]) = false ∧
    (handlePrompt "q2" (.ok [some "hey"])
        (run [.upload pngFile, .submit "q" (.ok [some "r"])])).2 =
      .completed
        [⟨"system",
          .str "You are an AI assistant that can see images and answer questions about them."⟩,
         ⟨"user", .parts [.image_url (image_to_data_url pngFile), .text "q"]⟩,
         ⟨"assistant", .str "r"⟩,
         ⟨"user", .parts [.text "q2"]⟩] ∧
    (handlePrompt "q2" (.ok [some "hey"])
        (run [.upload pngFile, .submit "q" (.ok [some "r"])])).1.image_data_url =
      some (image_to_data_url pngFile) := by
  have h := submit_sent_messages (run [.upload pngFile, .submit "q" (.ok [some "r"])])
    "q2" (.ok [some "hey"]) (by decide) rfl
  exact ⟨by decide, rfl, h.1.trans (by decide), h.2.2.trans (by decide)⟩

/-- C10: every Submit passing the precondition appends exactly a user turn
followed by an assistant turn, for success and failure alike; hence every
reachable history alternates user/assistant starting with user and has
even length. -/
theorem submit_pair_and_history_shape :
    (∀ (s : SessionState) (text : String) (remote : RemoteResult),
        ¬ text = "" → guardFails s = false →
        ∃ c r, (handlePrompt text remote s).1.messages =
          s.messages ++ [⟨"user", .parts c⟩, ⟨"assistant", .str r⟩]) ∧
    (∀ es : List Event, rolesAlternate (run es).messages = true ∧
        (run es).messages.length % 2 = 0) := by
  constructor
  · intro s text remote ht hg
    exact ⟨(if !s.image_sent && optTruthy s.image_data_url then
        [.image_url (s.image_data_url.getD ""), .text text] else [.text text]),
      assistantText remote, handlePrompt_messages_eq s text remote ht hg⟩
  · intro es
    have h := run_alternates es
    exact ⟨h, rolesAlternate_even _ h⟩

/-- Witness for `submit_pair_and_history_shape`: a failing submit still
appends a user/assistant pair, and a concrete three-event run alternates
with even length. -/
theorem submit_pair_and_history_shape_witness :
    ¬ "q" = "" ∧ guardFails (handleUpload pngFile initState) = false ∧
    (∃ c r, (handlePrompt "q" (.err [] "down")
        (handleUpload pngFile initState)).1.messages =
      (handleUpload pngFile initState).messages ++
        [⟨"user", .parts c⟩, ⟨"assistant", .str r⟩]) ∧
    rolesAlternate (run [.upload pngFile, .submit "q" (.ok [some "r"]),
      .submit "more" (.err [] "x")]).messages = true ∧
    (run [.upload pngFile, .submit "q" (.ok [some "r"]),
      .submit "more" (.err [] "x")]).messages.length % 2 = 0 := by
  have h := submit_pair_and_history_shape
  exact ⟨by decide, rfl,
    h.1 (handleUpload pngFile initState) "q" (.err [] "down") (by decide) rfl,
    (h.2 [.upload pngFile, .submit "q" (.ok [some "r"]),
      .submit "more" (.err [] "x")]).1,
    (h.2 [.upload pngFile, .submit "q" (.ok [some "r"]),
      .submit "more" (.err [] "x")]).2⟩

end ImageChat
